import Mathlib

/-
  Verification of the eCrash crash-capture library (eCrash.c) against its
  natural-language specification.  The C sources are shallowly embedded:
  pointers become `Option`, machine integers become `Nat`/`Int`, the
  process-wide globals become an explicit state record, and the behaviour of
  the environment (the kernel `write` call, thread responses to the
  rendezvous signal) is supplied through explicit oracle arguments.
-/

namespace ECrash

/-- A symbol-table entry, `eCrashSymbol` from eCrash.h: a function name and
its entry address (addresses modelled as `Nat`). -/
structure eCrashSymbol where
  function : String
  address : Nat
deriving DecidableEq

/-- Loop body of `lookupClosestSymbol` (eCrash.c:305-313): walk the table in
order; stop as soon as an entry's address exceeds the query; remember the
most recent entry not exceeding it in `last`. -/
def lookupClosestSymbolGo (address : Nat) : List eCrashSymbol → Option eCrashSymbol → Option eCrashSymbol
  | [], last => last
  | s :: rest, last =>
    if s.address > address then last
    else lookupClosestSymbolGo address rest (some s)

/-- `lookupClosestSymbol` (eCrash.c:298-320): linear scan returning the last
entry whose address does not exceed the queried address, or `none`. -/
def lookupClosestSymbol (table : List eCrashSymbol) (address : Nat) : Option eCrashSymbol :=
  lookupClosestSymbolGo address table none

/-- One line of crash-report output, abstracting the `outputPrintf` format
strings used by `outputGlobalBacktrace` and `outputBacktraceThreads`. -/
inductive OutLine where
  /-- `"*  Backtrace of \x22%s\x22 (0x%p)\n"` (eCrash.c:417) -/
  | btHeader (name : String) (thread : Nat)
  /-- `"*      Frame %02d: %s+%u\n"` (eCrash.c:363-364) -/
  | frameSym (i : Nat) (name : String) (offset : Nat)
  /-- `"*      Frame %02d: %p\n"` (eCrash.c:368, 379) -/
  | frameRaw (i : Nat) (addr : Nat)
  /-- `"*      Frame %02d: %s\n"` (eCrash.c:375), a backtrace_symbols line -/
  | frameText (i : Nat) (text : String)
  /-- `"*  Error: unable to get backtrace of \x22%s\x22 (0x%p)\n"` (eCrash.c:422) -/
  | btError (name : String) (thread : Nat)
  /-- `"*\n"` (eCrash.c:425) -/
  | sep
deriving DecidableEq

/-- Zero-padded two-digit rendering of the frame index (`%02d`). -/
def pad2 (n : Nat) : String :=
  if n < 10 then "0" ++ toString n else toString n

/-- Text of an output line as written by `outputPrintf`'s format strings. -/
def render : OutLine → String
  | OutLine.btHeader name tid =>
      "*  Backtrace of \x22" ++ name ++ "\x22 (0x" ++ toString tid ++ ")\n"
  | OutLine.frameSym i name offset =>
      "*      Frame " ++ pad2 i ++ ": " ++ name ++ "+" ++ toString offset ++ "\n"
  | OutLine.frameRaw i addr =>
      "*      Frame " ++ pad2 i ++ ": 0x" ++ toString addr ++ "\n"
  | OutLine.frameText i text =>
      "*      Frame " ++ pad2 i ++ ": " ++ text ++ "\n"
  | OutLine.btError name tid =>
      "*  Error: unable to get backtrace of \x22" ++ name ++ "\x22 (0x" ++ toString tid ++ ")\n"
  | OutLine.sep => "*\n"

/-- Per-frame body of `outputGlobalBacktrace` (eCrash.c:353-382): with a
caller-supplied table, resolve through `lookupClosestSymbol` and print
name+offset (or the raw address on a miss); with no table, print the
`backtrace_symbols` text when available, else the raw address. -/
def outputFrame (symbolTable : Option (List eCrashSymbol))
    (backtraceSymbols : Option (List String)) (i addr : Nat) : OutLine :=
  match symbolTable with
  | some table =>
    match lookupClosestSymbol table addr with
    | some symbol => OutLine.frameSym i symbol.function (addr - symbol.address)
    | none => OutLine.frameRaw i addr
  | none =>
    match backtraceSymbols with
    | some syms => OutLine.frameText i (syms.getD i "")
    | none => OutLine.frameRaw i addr

/-- `outputGlobalBacktrace` (eCrash.c:349-383): one line per captured frame
of the shared buffer. -/
def outputGlobalBacktrace (symbolTable : Option (List eCrashSymbol))
    (backtraceSymbols : Option (List String)) (buffer : List Nat) : List OutLine :=
  buffer.enum.map (fun p => outputFrame symbolTable backtraceSymbols p.1 p.2)

/-- Loop of `ValidateSymbolTable` (eCrash.c:507-519).  Faithful to the
source: `lastAddress` is threaded through unchanged because the C loop
never assigns to it after its initialisation to 0. -/
def ValidateSymbolTableGo : List eCrashSymbol → Nat → Int → Int
  | [], _, rc => rc
  | s :: rest, lastAddress, rc =>
    ValidateSymbolTableGo rest lastAddress (if lastAddress > s.address then -1 else rc)

/-- `ValidateSymbolTable` (eCrash.c:493-523): returns 0 for an absent table,
otherwise runs the scan with `lastAddress = 0` and `rc = 0`. -/
def ValidateSymbolTable (symbolTable : Option (List eCrashSymbol)) : Int :=
  match symbolTable with
  | none => 0
  | some table => ValidateSymbolTableGo table 0 0

/-- Loop of `blockingWrite` (eCrash.c:164-173).  The `oracle` lists the
successive return values of the kernel `write` call; an exhausted oracle
ends the run.  Faithful to the source: `offset` is threaded through
unchanged because the C loop never advances it, so every `write` call
presents `&str[offset]` with `offset` still 0.  Returns the pair
(totalWritten, bytes actually delivered to the descriptor). -/
def blockingWriteGo (str : List Nat) : List Int → Nat → Nat → Nat → List Nat → Nat × List Nat
  | [], _, _, totalWritten, delivered => (totalWritten, delivered)
  | r :: rest, bytes, offset, totalWritten, delivered =>
    if bytes = 0 then (totalWritten, delivered)
    else if r < 1 then (totalWritten, delivered)
    else blockingWriteGo str rest (bytes - r.toNat) offset (totalWritten + r.toNat)
      (delivered ++ (str.drop offset).take (min r.toNat bytes))

/-- `blockingWrite` (eCrash.c:158-176): write `bytes` bytes of `str`,
looping on partial writes, stopping when a write reports no progress. -/
def blockingWrite (str : List Nat) (bytes : Nat) (oracle : List Int) : Nat × List Nat :=
  blockingWriteGo str oracle bytes 0 0 []

/-- `outputPrintf` (eCrash.c:189-241): format into a bounded line buffer,
then write the line to each configured target in turn — the descriptor
opened from the file path, the explicit stream, the explicit descriptor —
each `if` overwriting `return_value` on its notion of failure.  Faithful to
the source: the file-path and descriptor targets flag failure when
`blockingWrite`'s return (the byte count) is nonzero, and the stream target
when `fwrite` does not return 1 (modelled by `streamOk = false`). -/
def outputPrintf (maxLineLen : Nat) (filename : Option String) (gbl_fd : Int)
    (filep : Option Unit) (fd : Int) (line : List Nat)
    (fileOracle : List Int) (streamOk : Bool) (fdOracle : List Int) : Int :=
  let bytesInLine : Int := (line.length : Int)
  if bytesInLine > -1 ∧ bytesInLine < (maxLineLen : Int) - 1 then
    let rv0 : Int := 0
    let rv1 : Int :=
      if filename.isSome ∧ gbl_fd ≠ -1 ∧ (blockingWrite line line.length fileOracle).1 ≠ 0
      then -2 else rv0
    let rv2 : Int := if filep.isSome ∧ streamOk = false then -3 else rv1
    let rv3 : Int :=
      if fd ≠ -1 ∧ (blockingWrite line line.length fdOracle).1 ≠ 0
      then -4 else rv2
    rv3
  else -1

/-- A signal disposition.  `bt_handler` and `crash_handler` are the two
handlers eCrash installs (eCrash.c:441, 481); `other` covers any handler the
application had installed before. -/
inductive SigHandler where
  | sig_dfl
  | bt_handler
  | crash_handler
  | other (h : Nat)
deriving DecidableEq

/-- `ThreadListNode` (eCrash.c:38-45): one registry entry. -/
structure ThreadListNode where
  threadName : String
  thread : Nat
  backtraceSignal : Nat
  oldHandler : SigHandler
deriving DecidableEq

/-- The process-wide mutable state the registry functions touch: the
per-signal dispositions (the kernel's signal table, read and written through
`signal()`) and the `ThreadList` head (eCrash.c:48). -/
structure ECrashState where
  dispositions : Nat → SigHandler
  threadList : List ThreadListNode

/-- The `signal(signo, handler)` call: returns the previously-installed
disposition and installs the new one. -/
def signalInstall (signo : Nat) (h : SigHandler) (st : ECrashState) : SigHandler × ECrashState :=
  (st.dispositions signo,
   { st with dispositions := fun s => if s = signo then h else st.dispositions s })

/-- `addThreadToList` (eCrash.c:66-89): allocate a node (failure modelled by
`allocOk = false`, returning -1 with the state untouched) and link it at
the head of `ThreadList`. -/
def addThreadToList (allocOk : Bool) (name : String) (thread : Nat) (signo : Nat)
    (old_handler : SigHandler) (st : ECrashState) : Int × ECrashState :=
  if allocOk = false then (-1, st)
  else
    (0, { st with threadList :=
            { threadName := name, thread := thread, backtraceSignal := signo,
              oldHandler := old_handler } :: st.threadList })

/-- Search step of `removeThreadFromList` (eCrash.c:105-126): find the first
node whose thread id matches, unlink it, and return it with the remaining
list. -/
def removeFirstNode (thread : Nat) : List ThreadListNode → Option (ThreadListNode × List ThreadListNode)
  | [] => none
  | probe :: rest =>
    if probe.thread = thread then some (probe, rest)
    else
      match removeFirstNode thread rest with
      | some pr => some (pr.1, probe :: pr.2)
      | none => none

/-- `removeThreadFromList` (eCrash.c:98-147): unlink the first matching
node, restore the signal disposition recorded in it via
`signal(Removed->backtraceSignal, Removed->oldHandler)` (eCrash.c:134), and
free it; return -1 when the calling thread was never registered. -/
def removeThreadFromList (thread : Nat) (st : ECrashState) : Int × ECrashState :=
  match removeFirstNode thread st.threadList with
  | some pr =>
    (0, { dispositions := fun s =>
            if s = pr.1.backtraceSignal then pr.1.oldHandler else st.dispositions s,
          threadList := pr.2 })
  | none => (-1, st)

/-- `eCrash_RegisterThread` (eCrash.c:654-667): substitute the process-wide
default signal for 0, install `bt_handler` — recording the old disposition —
and only then try to allocate the registry node.  `defaultBacktraceSignal`
stands for `gbl_params.defaultBacktraceSignal` and `self` for
`pthread_self()`. -/
def eCrash_RegisterThread (defaultBacktraceSignal : Nat) (allocOk : Bool) (name : String)
    (self : Nat) (signo : Nat) (st : ECrashState) : Int × ECrashState :=
  let signo2 := if signo = 0 then defaultBacktraceSignal else signo
  let p := signalInstall signo2 SigHandler.bt_handler st
  addThreadToList allocOk name self signo2 p.1 p.2

/-- `eCrash_UnregisterThread` (eCrash.c:677-680). -/
def eCrash_UnregisterThread (self : Nat) (st : ECrashState) : Int × ECrashState :=
  removeThreadFromList self st

/-- What the coordinator observes of one sampled thread: whether
`gbl_backtraceDoneFlag` was found set within the polling loop's budget
(eCrash.c:405-415 — the `sleep(1)` poll is real time, abstracted to its
outcome), and the shared-buffer contents that thread's `bt_handler` capture
left behind (`gbl_backtraceBuffer` addresses and, when `backtrace_symbols`
ran, its text lines). -/
structure SampleOutcome where
  done : Bool
  buffer : List Nat
  btSymbols : Option (List String)
deriving DecidableEq

/-- The report section the loop body of `outputBacktraceThreads` emits for
one registry entry (eCrash.c:415-425): on success a header line followed by
the captured frames, on timeout the error line; in both cases the `"*\n"`
separator closes the section. -/
def threadSection (symbolTable : Option (List eCrashSymbol)) (node : ThreadListNode)
    (oc : SampleOutcome) : List OutLine :=
  (if oc.done then
    OutLine.btHeader node.threadName node.thread
      :: outputGlobalBacktrace symbolTable oc.btSymbols oc.buffer
  else
    [OutLine.btError node.threadName node.thread])
  ++ [OutLine.sep]

/-- `outputBacktraceThreads` (eCrash.c:394-427): walk `ThreadList` from the
head; for each node clear the flag, signal the thread, poll, and emit that
node's section; the per-node outcomes are supplied positionally by `ocs`. -/
def outputBacktraceThreads (symbolTable : Option (List eCrashSymbol)) :
    List ThreadListNode → List SampleOutcome → List OutLine
  | probe :: rest, oc :: ocs =>
    ((if oc.done then
        OutLine.btHeader probe.threadName probe.thread
          :: outputGlobalBacktrace symbolTable oc.btSymbols oc.buffer
      else
        [OutLine.btError probe.threadName probe.thread])
      ++ [OutLine.sep])
      ++ outputBacktraceThreads symbolTable rest ocs
  | _, _ => []

/-- `eCrashParameters` (from eCrash.h, as used throughout eCrash.c):
pointers modelled as `Option`, the zero-terminated `signals` array as the
list of entries up to the sentinel. -/
structure eCrashParameters where
  filename : Option String
  filep : Option Unit
  fd : Int
  maxStackDepth : Nat
  defaultBacktraceSignal : Nat
  threadWaitTime : Nat
  debugLevel : Nat
  dumpAllThreads : Bool
  useBacktraceSymbols : Bool
  symbolTable : Option (List eCrashSymbol)
  signals : List Nat
deriving DecidableEq

/-- Modelled from the spec: the numeric default constants
(`ECRASH_DEFAULT_STACK_DEPTH`, `ECRASH_DEFAULT_BACKTRACE_SIGNAL`,
`ECRASH_DEFAULT_THREAD_WAIT_TIME`, `ECRASH_DEBUG_DEFAULT`) are defined in
the header eCrash.h, which is not among the provided sources.  The spec
constrains the stack depth, signal and wait budget only to be positive
values substituted for zeroed configuration fields ("bounded positive
integer; defaulted if zero"), so they are carried as parameters. -/
structure HeaderDefaults where
  defaultStackDepth : Nat
  defaultBacktraceSignal : Nat
  defaultThreadWaitTime : Nat
  debugDefault : Nat
deriving DecidableEq

/-- Defaulting of zeroed configuration fields (eCrash.c:569-588), applied to
the global copy of the parameters after it is made. -/
def applyDefaults (hd : HeaderDefaults) (p : eCrashParameters) : eCrashParameters :=
  { p with
    maxStackDepth := if p.maxStackDepth = 0 then hd.defaultStackDepth else p.maxStackDepth,
    defaultBacktraceSignal :=
      if p.defaultBacktraceSignal = 0 then hd.defaultBacktraceSignal else p.defaultBacktraceSignal,
    threadWaitTime := if p.threadWaitTime = 0 then hd.defaultThreadWaitTime else p.threadWaitTime,
    debugLevel := if p.debugLevel = 0 then hd.debugDefault else p.debugLevel }

/-- Result of `eCrash_Init`: either a return code together with the global
state it leaves behind, or a fault (dereference of an invalid pointer). -/
inductive InitOutcome where
  | ok (ret : Int) (gbl_params : eCrashParameters) (bufferCapacity : Nat)
      (installedSignals : List Nat)
  | fault
deriving DecidableEq

/-- `eCrash_Init` (eCrash.c:542-626).  Faithful to the source order:
`params->maxStackDepth` is read at eCrash.c:554 to size the capture buffer
before the `params != NULL` test at eCrash.c:563, so a null configuration
faults rather than reaching the `ret = -1` branch; the buffer is sized from
the raw depth (`maxStackDepth + 5`) before the defaulting at
eCrash.c:570-573; `strdup(params->filename)` at eCrash.c:567 faults when
the optional file path is absent; the `ValidateSymbolTable` return code is
discarded (eCrash.c:604); `crash_handler` is installed for each signal up
to the zero sentinel (eCrash.c:608-616). -/
def eCrash_Init (hd : HeaderDefaults) (params : Option eCrashParameters) : InitOutcome :=
  match params with
  | none => InitOutcome.fault
  | some p =>
    let bufferCapacity := p.maxStackDepth + 5
    match p.filename with
    | none => InitOutcome.fault
    | some _ =>
      let gbl := applyDefaults hd p
      let _ := ValidateSymbolTable gbl.symbolTable
      InitOutcome.ok 0 gbl bufferCapacity (gbl.signals.takeWhile (fun s => s ≠ 0))

/-- Capture-buffer capacity in entries, as allocated at eCrash.c:554 from
the raw (pre-default) configured depth. -/
def bufferCapacity (p : eCrashParameters) : Nat :=
  p.maxStackDepth + 5

/-- The effective maximum depth `createGlobalBacktrace` passes to
`backtrace` (eCrash.c:331): the global copy's depth after defaulting. -/
def effectiveMaxStackDepth (hd : HeaderDefaults) (p : eCrashParameters) : Nat :=
  (applyDefaults hd p).maxStackDepth

/-- The buffer indices `backtrace(gbl_backtraceBuffer, maxStackDepth)`
stores to in `createGlobalBacktrace` (eCrash.c:331): one return address per
frame, up to the requested depth, at indices 0, 1, .... -/
def createGlobalBacktraceWrites (effectiveDepth framesAvailable : Nat) : List Nat :=
  List.range (min framesAvailable effectiveDepth)

/-- Scenario driver for the registration interface: register the given
(name, thread id, requested signal) triples in order, all allocations
succeeding, starting from state `st`. -/
def registerAll (defaultSig : Nat) (specs : List (String × Nat × Nat)) (st : ECrashState) : ECrashState :=
  specs.foldl (fun s sp => (eCrash_RegisterThread defaultSig true sp.1 sp.2.1 sp.2.2 s).2) st

/-- A small concrete symbol table, sorted ascending by address (the spec's
example table: f at 0x100, g at 0x200). -/
def sampleTable : List eCrashSymbol :=
  [{ function := "f", address := 256 }, { function := "g", address := 512 }]

/-
  Helper lemmas.
-/

theorem ValidateSymbolTableGo_zero (l : List eCrashSymbol) (rc : Int) :
    ValidateSymbolTableGo l 0 rc = rc := by
  induction l generalizing rc with
  | nil => rfl
  | cons s rest ih => simp [ValidateSymbolTableGo, ih]

theorem lookupClosestSymbolGo_all_above (addr : Nat) (l : List eCrashSymbol)
    (acc : Option eCrashSymbol) (h : ∀ e ∈ l, addr < e.address) :
    lookupClosestSymbolGo addr l acc = acc := by
  cases l with
  | nil => rfl
  | cons s rest =>
    have hs : addr < s.address := h s (by simp)
    simp [lookupClosestSymbolGo, hs]

theorem lookupClosestSymbolGo_finds (addr : Nat) :
    ∀ (l : List eCrashSymbol) (acc : Option eCrashSymbol),
      List.Pairwise (fun a b => a.address < b.address) l →
      (∃ e ∈ l, e.address ≤ addr) →
      ∃ r, lookupClosestSymbolGo addr l acc = some r ∧ r ∈ l ∧ r.address ≤ addr
        ∧ ∀ x ∈ l, x.address ≤ addr → x.address ≤ r.address := by
  intro l
  induction l with
  | nil =>
    intro acc _ h
    simp at h
  | cons s rest ih =>
    intro acc hp he
    have hs : s.address ≤ addr := by
      obtain ⟨e, hemem, hea⟩ := he
      rcases List.mem_cons.mp hemem with rfl | hmem
      · exact hea
      · exact le_of_lt (lt_of_lt_of_le ((List.pairwise_cons.mp hp).1 e hmem) hea)
    have hnot : ¬ (s.address > addr) := not_lt.mpr hs
    rw [lookupClosestSymbolGo, if_neg hnot]
    by_cases hrest : ∃ e ∈ rest, e.address ≤ addr
    · obtain ⟨r, hr1, hr2, hr3, hr4⟩ := ih (some s) (List.pairwise_cons.mp hp).2 hrest
      refine ⟨r, hr1, List.mem_cons_of_mem _ hr2, hr3, ?_⟩
      intro x hx hxa
      rcases List.mem_cons.mp hx with rfl | hxm
      · exact le_of_lt ((List.pairwise_cons.mp hp).1 r hr2)
      · exact hr4 x hxm hxa
    · push_neg at hrest
      rw [lookupClosestSymbolGo_all_above addr rest (some s) hrest]
      refine ⟨s, rfl, List.mem_cons_self _ _, hs, ?_⟩
      intro x hx hxa
      rcases List.mem_cons.mp hx with rfl | hxm
      · exact le_rfl
      · exact absurd hxa (not_le.mpr (hrest x hxm))

theorem pairwise_address_inj (l : List eCrashSymbol)
    (hp : List.Pairwise (fun a b => a.address < b.address) l) :
    ∀ x ∈ l, ∀ y ∈ l, x.address = y.address → x = y := by
  induction hp with
  | nil =>
    intro x hx
    simp at hx
  | cons hhead _htail ih =>
    intro x hx y hy hxy
    rcases List.mem_cons.mp hx with rfl | hxm
    · rcases List.mem_cons.mp hy with rfl | hym
      · rfl
      · exact absurd hxy (ne_of_lt (hhead y hym))
    · rcases List.mem_cons.mp hy with rfl | hym
      · exact absurd hxy.symm (ne_of_lt (hhead x hxm))
      · exact ih x hxm y hym hxy

/-
  Claim theorems.
-/

/-- C3 (code_bug evaluation): `eCrash_Init` does not report a null
configuration with a negative status.  It dereferences `params` at
eCrash.c:554 (to size the capture buffer) before the `params != NULL` test
at eCrash.c:563, so the null path faults instead of returning -1; and on
the non-null path `strdup(params->filename)` at eCrash.c:567 faults when
the optional output file path is absent, so such configurations never reach
the zero return either. -/
theorem eCrash_Init_null_and_absent_filename_fault :
    (∀ hd : HeaderDefaults, eCrash_Init hd none = InitOutcome.fault)
    ∧ (∀ (hd : HeaderDefaults) (p : eCrashParameters),
        eCrash_Init hd (some { p with filename := none }) = InitOutcome.fault) := by
  exact ⟨fun _ => rfl, fun _ _ => rfl⟩

/-- C4 (code_bug evaluation): `ValidateSymbolTable` never reports a
violation.  Its loop (eCrash.c:507-519) compares each address against
`lastAddress` but never updates `lastAddress` from its initialisation to 0,
and no unsigned address is below 0, so the scan returns 0 for every table —
including one with an adjacent strictly descending pair. -/
theorem ValidateSymbolTable_never_detects (symbolTable : Option (List eCrashSymbol)) :
    ValidateSymbolTable symbolTable = 0 := by
  cases symbolTable with
  | none => rfl
  | some table => exact ValidateSymbolTableGo_zero table 0

/-- C5 (code_bug evaluation): `outputPrintf`'s status is inverted for the
`blockingWrite`-backed targets.  With only the explicit descriptor
configured (fd = 3) and a 2-byte line: a write that accepts the whole line
makes `blockingWrite` return 2, which the `if (blockingWrite(...))` test at
eCrash.c:228 treats as a failure, so `outputPrintf` returns -4; a write
that fails immediately (no progress) makes `blockingWrite` return 0, and
`outputPrintf` returns 0 as if all targets had accepted the line. -/
theorem outputPrintf_inverted_status :
    outputPrintf 256 none (-1) none 3 [42, 10] [] true [2] = -4
    ∧ outputPrintf 256 none (-1) none 3 [42, 10] [] true [0] = 0 := by
  exact ⟨by decide, by decide⟩

/-- C6 (code_bug evaluation): `blockingWrite` never advances `offset`
(eCrash.c:164-173), so after a partial write the next `write` call re-sends
the start of the string.  For the 4-byte string [10, 11, 12, 13] with the
kernel accepting 2 bytes on each of two calls, the loop accounts all 4
bytes as written (`totalWritten = 4`) yet the descriptor receives
[10, 11, 10, 11], not the string's bytes each exactly once in order. -/
theorem blockingWrite_resends_prefix :
    blockingWrite [10, 11, 12, 13] 4 [2, 2] = (4, [10, 11, 10, 11])
    ∧ [10, 11, 10, 11] ≠ [10, 11, 12, 13] := by
  exact ⟨by decide, by decide⟩

/-- C9: registering a thread (recording the disposition that `signal`
returns when `bt_handler` is installed) and then unregistering it restores
the signal disposition — in fact every signal's disposition — and the
registry to exactly what they were before registration, and both calls
return 0. -/
theorem register_unregister_restores_disposition
    (defaultBacktraceSignal : Nat) (name : String) (self signo : Nat) (st : ECrashState) :
    (eCrash_RegisterThread defaultBacktraceSignal true name self signo st).1 = 0
    ∧ (eCrash_UnregisterThread self
        (eCrash_RegisterThread defaultBacktraceSignal true name self signo st).2).1 = 0
    ∧ (∀ s, (eCrash_UnregisterThread self
        (eCrash_RegisterThread defaultBacktraceSignal true name self signo st).2).2.dispositions s
        = st.dispositions s)
    ∧ (eCrash_UnregisterThread self
        (eCrash_RegisterThread defaultBacktraceSignal true name self signo st).2).2.threadList
      = st.threadList := by
  refine ⟨rfl, ?_, ?_, ?_⟩ <;>
    simp only [eCrash_RegisterThread, eCrash_UnregisterThread, addThreadToList,
      signalInstall, removeThreadFromList, removeFirstNode, if_pos rfl]
  · rfl
  · intro s
    by_cases h : s = (if signo = 0 then defaultBacktraceSignal else signo) <;> simp [h]
  · rfl

/-- C10: registration is not atomic on allocation failure.
`eCrash_RegisterThread` installs `bt_handler` (eCrash.c:664) before calling
`addThreadToList`; when the node allocation fails the call returns -1, the
registry is unchanged, and the chosen signal's disposition has nevertheless
been replaced by the capture handler and is not restored. -/
theorem register_alloc_failure_leaves_bt_handler
    (defaultBacktraceSignal : Nat) (name : String) (self signo : Nat) (st : ECrashState) :
    (eCrash_RegisterThread defaultBacktraceSignal false name self signo st).1 = -1
    ∧ (eCrash_RegisterThread defaultBacktraceSignal false name self signo st).2.dispositions
        (if signo = 0 then defaultBacktraceSignal else signo) = SigHandler.bt_handler
    ∧ (eCrash_RegisterThread defaultBacktraceSignal false name self signo st).2.threadList
      = st.threadList := by
  refine ⟨rfl, ?_, rfl⟩
  simp [eCrash_RegisterThread, addThreadToList, signalInstall]

/-- C2 counterexample: the claim fails for a spec-admissible default stack
depth.  The buffer is sized at eCrash.c:554 from the raw configured depth
(`maxStackDepth + 5`) before the zero field is defaulted at
eCrash.c:570-573, so with `maxStackDepth = 0` and a default depth of 10 the
buffer holds 5 entries while the stack walk may store a frame at index 5. -/
theorem capture_buffer_overflow_counterexample :
    ¬ (∀ (hd : HeaderDefaults) (p : eCrashParameters) (framesAvailable : Nat),
        0 < hd.defaultStackDepth →
        ∀ i ∈ createGlobalBacktraceWrites (effectiveMaxStackDepth hd p) framesAvailable,
          i < bufferCapacity p) := by
  intro h
  have h5 := h { defaultStackDepth := 10, defaultBacktraceSignal := 10,
                 defaultThreadWaitTime := 5, debugDefault := 1 }
      { filename := some "eCrash.out", filep := none, fd := -1, maxStackDepth := 0,
        defaultBacktraceSignal := 0, threadWaitTime := 0, debugLevel := 0,
        dumpAllThreads := false, useBacktraceSymbols := false, symbolTable := none,
        signals := [11] } 10 (by decide) 5 (by decide)
  exact absurd h5 (by decide)

/-- C2 amended: for every configuration whose maximum stack depth is
nonzero, the capture buffer (raw depth + 5 entries) can hold the effective
depth, so `createGlobalBacktrace` never stores a frame past its end; when
the configured depth is zero the buffer is sized from the pre-default value
(5 entries) while the walk uses the defaulted depth, so the guarantee
additionally needs the default depth to be at most 5. -/
theorem capture_buffer_safe_amended
    (hd : HeaderDefaults) (p : eCrashParameters) (framesAvailable : Nat)
    (h : p.maxStackDepth ≠ 0 ∨ hd.defaultStackDepth ≤ 5) :
    ∀ i ∈ createGlobalBacktraceWrites (effectiveMaxStackDepth hd p) framesAvailable,
      i < bufferCapacity p := by
  intro i hi
  rw [createGlobalBacktraceWrites, List.mem_range] at hi
  have hi3 : i < effectiveMaxStackDepth hd p := lt_of_lt_of_le hi (min_le_right _ _)
  simp only [effectiveMaxStackDepth, applyDefaults] at hi3
  rw [bufferCapacity]
  by_cases hz : p.maxStackDepth = 0
  · rcases h with h | h
    · exact absurd hz h
    · rw [if_pos hz] at hi3
      omega
  · rw [if_neg hz] at hi3
    omega

/-- C2 witness: the amended safety guarantee applied to a configuration
with nonzero stack depth. -/
theorem capture_buffer_safe_amended_witness :
    (({ filename := some "eCrash.out", filep := none, fd := -1, maxStackDepth := 8,
        defaultBacktraceSignal := 0, threadWaitTime := 0, debugLevel := 0,
        dumpAllThreads := false, useBacktraceSymbols := false, symbolTable := none,
        signals := [11] } : eCrashParameters).maxStackDepth ≠ 0
      ∨ ({ defaultStackDepth := 10, defaultBacktraceSignal := 10,
           defaultThreadWaitTime := 5, debugDefault := 1 } : HeaderDefaults).defaultStackDepth ≤ 5)
    ∧ (∀ i ∈ createGlobalBacktraceWrites
          (effectiveMaxStackDepth
            { defaultStackDepth := 10, defaultBacktraceSignal := 10,
              defaultThreadWaitTime := 5, debugDefault := 1 }
            { filename := some "eCrash.out", filep := none, fd := -1, maxStackDepth := 8,
              defaultBacktraceSignal := 0, threadWaitTime := 0, debugLevel := 0,
              dumpAllThreads := false, useBacktraceSymbols := false, symbolTable := none,
              signals := [11] }) 20,
        i < bufferCapacity
            { filename := some "eCrash.out", filep := none, fd := -1, maxStackDepth := 8,
              defaultBacktraceSignal := 0, threadWaitTime := 0, debugLevel := 0,
              dumpAllThreads := false, useBacktraceSymbols := false, symbolTable := none,
              signals := [11] }) :=
  ⟨by decide, capture_buffer_safe_amended _ _ 20 (by decide)⟩

theorem outputBacktraceThreads_eq_sections (symbolTable : Option (List eCrashSymbol)) :
    ∀ (nodes : List ThreadListNode) (ocs : List SampleOutcome),
      outputBacktraceThreads symbolTable nodes ocs
        = (List.zipWith (threadSection symbolTable) nodes ocs).flatten := by
  intro nodes
  induction nodes with
  | nil => intro ocs; cases ocs <;> rfl
  | cons n ns ih =>
    intro ocs
    cases ocs with
    | nil => rfl
    | cons oc ocs2 => simp [outputBacktraceThreads, threadSection, ih]

theorem threadSection_getLast (symbolTable : Option (List eCrashSymbol))
    (node : ThreadListNode) (oc : SampleOutcome) :
    (threadSection symbolTable node oc).getLast? = some OutLine.sep := by
  rw [threadSection]
  exact List.getLast?_concat _

theorem zipWith_sections_getLast (symbolTable : Option (List eCrashSymbol)) :
    ∀ (nodes : List ThreadListNode) (ocs : List SampleOutcome),
      ∀ sec ∈ List.zipWith (threadSection symbolTable) nodes ocs,
        sec.getLast? = some OutLine.sep := by
  intro nodes
  induction nodes with
  | nil =>
    intro ocs sec h
    simp at h
  | cons n ns ih =>
    intro ocs sec h
    cases ocs with
    | nil => simp at h
    | cons oc ocs2 =>
      rw [List.zipWith_cons_cons] at h
      rcases List.mem_cons.mp h with rfl | hm
      · exact threadSection_getLast symbolTable n oc
      · exact ih ocs2 sec hm

theorem registerAll_names (defaultSig : Nat) :
    ∀ (specs : List (String × Nat × Nat)) (st : ECrashState),
      (registerAll defaultSig specs st).threadList.map (fun n => n.threadName)
        = (specs.map (fun sp => sp.1)).reverse
            ++ st.threadList.map (fun n => n.threadName) := by
  intro specs
  induction specs with
  | nil =>
    intro st
    simp [registerAll]
  | cons sp sps ih =>
    intro st
    simp only [registerAll, List.foldl_cons] at ih ⊢
    rw [ih]
    simp [eCrash_RegisterThread, addThreadToList, signalInstall]

/-- C7: when a registry entry's completion flag is not seen set within the
wait budget (`oc.done = false`), the coordinator emits the error line —
whose rendered text contains the literal "unable to get backtrace" and
names the thread — followed by the separator line, and the traversal
continues with the remaining registry entries exactly as it would have;
the timeout never terminates the report. -/
theorem rendezvous_timeout_tolerated
    (symbolTable : Option (List eCrashSymbol))
    (nodes1 nodes2 : List ThreadListNode) (node : ThreadListNode)
    (ocs1 ocs2 : List SampleOutcome) (oc : SampleOutcome)
    (hlen : nodes1.length = ocs1.length) (hdone : oc.done = false) :
    outputBacktraceThreads symbolTable (nodes1 ++ node :: nodes2) (ocs1 ++ oc :: ocs2)
      = outputBacktraceThreads symbolTable nodes1 ocs1
        ++ [OutLine.btError node.threadName node.thread, OutLine.sep]
        ++ outputBacktraceThreads symbolTable nodes2 ocs2
    ∧ ∃ pre post : String,
        render (OutLine.btError node.threadName node.thread)
          = pre ++ "unable to get backtrace" ++ post := by
  constructor
  · induction nodes1 generalizing ocs1 with
    | nil =>
      cases ocs1 with
      | nil => simp [outputBacktraceThreads, hdone]
      | cons a l => simp at hlen
    | cons n ns ih =>
      cases ocs1 with
      | nil => simp at hlen
      | cons a l =>
        have hlen2 : ns.length = l.length := by simpa using hlen
        have ih2 := ih l hlen2
        simp only [List.cons_append, outputBacktraceThreads, List.append_eq,
          List.nil_append] at ih2 ⊢
        rw [ih2]
        simp [List.append_assoc]
  · refine ⟨"*  Error: ",
      " of \x22" ++ node.threadName ++ "\x22 (0x" ++ toString node.thread ++ ")\n", ?_⟩
    show "*  Error: unable to get backtrace of \x22" ++ node.threadName
        ++ "\x22 (0x" ++ toString node.thread ++ ")\n" = _
    simp only [← String.append_assoc]
    rw [(by decide : ("*  Error: " : String) ++ "unable to get backtrace" ++ " of \x22"
        = "*  Error: unable to get backtrace of \x22")]

/-- C7 witness: a single registered thread that never responds produces the
error-plus-separator section and the (empty) remainder of the traversal. -/
theorem rendezvous_timeout_tolerated_witness :
    ([] : List ThreadListNode).length = ([] : List SampleOutcome).length
    ∧ ({ done := false, buffer := [], btSymbols := none } : SampleOutcome).done = false
    ∧ (outputBacktraceThreads none
          ([] ++ ({ threadName := "worker", thread := 7, backtraceSignal := 10,
                    oldHandler := SigHandler.sig_dfl } : ThreadListNode) :: [])
          ([] ++ ({ done := false, buffer := [], btSymbols := none } : SampleOutcome) :: [])
        = outputBacktraceThreads none [] []
          ++ [OutLine.btError "worker" 7, OutLine.sep]
          ++ outputBacktraceThreads none [] []
      ∧ ∃ pre post : String,
          render (OutLine.btError "worker" 7) = pre ++ "unable to get backtrace" ++ post) :=
  ⟨rfl, rfl, rendezvous_timeout_tolerated none [] []
    { threadName := "worker", thread := 7, backtraceSignal := 10,
      oldHandler := SigHandler.sig_dfl } [] []
    { done := false, buffer := [], btSymbols := none } rfl rfl⟩

/-- C8: registering N threads (head insertion, eCrash.c:84-85) and then
running the all-threads phase (traversal from the head, eCrash.c:403)
yields the registry in reverse registration order, and the report is the
concatenation of exactly N per-thread sections — one per registry entry, in
that reverse order, each terminated by the separator line. -/
theorem all_threads_reverse_registration_order
    (defaultSig : Nat) (specs : List (String × Nat × Nat)) (st0 : ECrashState)
    (symbolTable : Option (List eCrashSymbol)) (ocs : List SampleOutcome)
    (hempty : st0.threadList = []) (hlen : ocs.length = specs.length) :
    ((registerAll defaultSig specs st0).threadList.map (fun n => n.threadName)
        = (specs.map (fun sp => sp.1)).reverse)
    ∧ outputBacktraceThreads symbolTable (registerAll defaultSig specs st0).threadList ocs
        = (List.zipWith (threadSection symbolTable)
            (registerAll defaultSig specs st0).threadList ocs).flatten
    ∧ (List.zipWith (threadSection symbolTable)
        (registerAll defaultSig specs st0).threadList ocs).length = specs.length
    ∧ (∀ sec ∈ List.zipWith (threadSection symbolTable)
        (registerAll defaultSig specs st0).threadList ocs,
        sec.getLast? = some OutLine.sep) := by
  have hnames := registerAll_names defaultSig specs st0
  rw [hempty] at hnames
  simp only [List.map_nil, List.append_nil] at hnames
  refine ⟨hnames, outputBacktraceThreads_eq_sections _ _ _, ?_,
    zipWith_sections_getLast _ _ _⟩
  have hlen2 : (registerAll defaultSig specs st0).threadList.length = specs.length := by
    have hcongr := congrArg List.length hnames
    simpa using hcongr
  rw [List.length_zipWith, hlen2, hlen, min_self]

/-- C8 witness: two registrations ("A" then "B") and the all-threads phase;
the registry lists "B" before "A". -/
theorem all_threads_reverse_order_witness :
    (({ dispositions := fun _ => SigHandler.sig_dfl, threadList := [] } : ECrashState).threadList
        = [])
    ∧ ([⟨true, [300], none⟩, ⟨false, [], none⟩] : List SampleOutcome).length
        = ([("A", 1, 0), ("B", 2, 5)] : List (String × Nat × Nat)).length
    ∧ (((registerAll 10 [("A", 1, 0), ("B", 2, 5)]
            { dispositions := fun _ => SigHandler.sig_dfl, threadList := [] }).threadList.map
          (fun n => n.threadName)
        = (([("A", 1, 0), ("B", 2, 5)] : List (String × Nat × Nat)).map
            (fun sp => sp.1)).reverse)
      ∧ outputBacktraceThreads none
          (registerAll 10 [("A", 1, 0), ("B", 2, 5)]
            { dispositions := fun _ => SigHandler.sig_dfl, threadList := [] }).threadList
          [⟨true, [300], none⟩, ⟨false, [], none⟩]
          = (List.zipWith (threadSection none)
              (registerAll 10 [("A", 1, 0), ("B", 2, 5)]
                { dispositions := fun _ => SigHandler.sig_dfl, threadList := [] }).threadList
              [⟨true, [300], none⟩, ⟨false, [], none⟩]).flatten
      ∧ (List.zipWith (threadSection none)
          (registerAll 10 [("A", 1, 0), ("B", 2, 5)]
            { dispositions := fun _ => SigHandler.sig_dfl, threadList := [] }).threadList
          [⟨true, [300], none⟩, ⟨false, [], none⟩]).length
          = ([("A", 1, 0), ("B", 2, 5)] : List (String × Nat × Nat)).length
      ∧ (∀ sec ∈ List.zipWith (threadSection none)
          (registerAll 10 [("A", 1, 0), ("B", 2, 5)]
            { dispositions := fun _ => SigHandler.sig_dfl, threadList := [] }).threadList
          [⟨true, [300], none⟩, ⟨false, [], none⟩],
          sec.getLast? = some OutLine.sep)) :=
  ⟨rfl, rfl, all_threads_reverse_registration_order 10 [("A", 1, 0), ("B", 2, 5)]
    { dispositions := fun _ => SigHandler.sig_dfl, threadList := [] } none
    [⟨true, [300], none⟩, ⟨false, [], none⟩] rfl rfl⟩

/-- C1: over a table sorted ascending by address, `lookupClosestSymbol`
returns none when every entry's address exceeds the query — in particular
when the query precedes the first entry — and otherwise returns the unique
entry with the greatest address not exceeding the query (an entry whose
address equals the query is itself returned); the frame formatter
(`outputGlobalBacktrace`'s per-frame branch) then reports that entry's name
together with the offset `addr - entry.address`. -/
theorem lookupClosestSymbol_resolves
    (table : List eCrashSymbol) (addr i : Nat)
    (hsorted : List.Pairwise (fun a b => a.address < b.address) table) :
    ((∀ e ∈ table, addr < e.address) → lookupClosestSymbol table addr = none)
    ∧ (∀ e0 rest, table = e0 :: rest → addr < e0.address →
        lookupClosestSymbol table addr = none)
    ∧ (∀ e ∈ table, e.address ≤ addr →
        ∃ r, lookupClosestSymbol table addr = some r
          ∧ r ∈ table ∧ r.address ≤ addr
          ∧ (∀ x ∈ table, x.address ≤ addr → x.address ≤ r.address)
          ∧ (∀ x ∈ table, x.address = addr → x = r)
          ∧ outputFrame (some table) none i addr
              = OutLine.frameSym i r.function (addr - r.address)) := by
  refine ⟨?_, ?_, ?_⟩
  · intro h
    exact lookupClosestSymbolGo_all_above addr table none h
  · intro e0 rest htab h0
    subst htab
    apply lookupClosestSymbolGo_all_above
    intro e he
    rcases List.mem_cons.mp he with rfl | hm
    · exact h0
    · exact lt_trans h0 ((List.pairwise_cons.mp hsorted).1 e hm)
  · intro e he hea
    obtain ⟨r, hr1, hr2, hr3, hr4⟩ :=
      lookupClosestSymbolGo_finds addr table none hsorted ⟨e, he, hea⟩
    have hlookup : lookupClosestSymbol table addr = some r := hr1
    refine ⟨r, hlookup, hr2, hr3, hr4, ?_, ?_⟩
    · intro x hx hxaddr
      have h1 : x.address ≤ r.address := hr4 x hx (le_of_eq hxaddr)
      have h2 : x.address = r.address := by omega
      exact pairwise_address_inj table hsorted x hx r hr2 h2
    · simp [outputFrame, hlookup]

/-- C1 witness: on the table [(f, 0x100), (g, 0x200)] the query 0x150
resolves to f with offset 0x50, and the frame line for frame 0 reports
f+0x50. -/
theorem lookupClosestSymbol_resolves_witness :
    List.Pairwise (fun a b => a.address < b.address) sampleTable
    ∧ (((∀ e ∈ sampleTable, 336 < e.address) → lookupClosestSymbol sampleTable 336 = none)
      ∧ (∀ e0 rest, sampleTable = e0 :: rest → 336 < e0.address →
          lookupClosestSymbol sampleTable 336 = none)
      ∧ (∀ e ∈ sampleTable, e.address ≤ 336 →
          ∃ r, lookupClosestSymbol sampleTable 336 = some r
            ∧ r ∈ sampleTable ∧ r.address ≤ 336
            ∧ (∀ x ∈ sampleTable, x.address ≤ 336 → x.address ≤ r.address)
            ∧ (∀ x ∈ sampleTable, x.address = 336 → x = r)
            ∧ outputFrame (some sampleTable) none 0 336
                = OutLine.frameSym 0 r.function (336 - r.address))) :=
  ⟨by decide, lookupClosestSymbol_resolves sampleTable 336 0 (by decide)⟩

end ECrash
